import Mathlib

/-!
Verification of `rlpack` (environment wrappers in
`rlpack/environment/altered_atari_wrappers.py` and the DQN estimator in
`rlpack/estimator/softdqn.py`) against its natural-language specification.

The Python code is shallowly embedded: observations are lists of rationals,
a wrapped gym environment is an abstract state-transition structure, numpy
batch operations become list operations over `ℚ`, and Python `assert`
statements become `Option` results (`none` = the assertion fired).
-/

/-- An observation (a numpy array, flattened to a list of scalars). -/
abbrev Obs : Type := List ℚ

/-- The pieces of the `info` dict that the wrappers read or write. -/
structure StepInfo where
  realReward : Option ℚ := none
  realDone : Option Bool := none
  episode : Option (ℚ × ℕ) := none
deriving DecidableEq, Repr

/-- Result of one `env.step` call: successor state, observation, reward,
done flag and info dict. -/
structure StepRes (S : Type) where
  s : S
  obs : Obs
  reward : ℚ
  done : Bool
  info : StepInfo
deriving DecidableEq

/-- An underlying gym environment: `reset` returns a fresh state and
observation, `step` consumes an action, `lives` reads `unwrapped.ale.lives()`. -/
structure GymEnv (S : Type) where
  reset : S → S × Obs
  step : S → ℕ → StepRes S
  lives : S → ℕ

/-! ## SoftDQN (`rlpack/estimator/softdqn.py`) -/

namespace SoftDQN

/-- The `tau` set in `SoftDQN.__init__` (0.001). -/
def tau : ℚ := 1 / 1000

/-- The `np.max` over one row of q-values (`target_next_q_vals.max(axis=1)`).
numpy errors on an empty row; rows here always have `n_act` entries. -/
def rowMax : List ℚ → ℚ
  | [] => 0
  | x :: xs => xs.foldl max x

/-- One mini-batch as produced by `utils.generator` and unpacked at the top
of `SoftDQN.update`: parallel arrays over the transitions of the batch. -/
structure SampleBatch where
  state : List Obs
  action : List ℕ
  spanreward : List ℚ
  laststate : List Obs
  lastdone : List ℚ

/-- The regression targets computed in `SoftDQN.update`:
`targets = reward_batch + (1 - done_batch) * discount * target_next_q_vals.max(axis=1)`
where `target_next_q_vals` is the target network applied to `laststate`. -/
def targetsFor (targetQ : Obs → List ℚ) (discount : ℚ) (b : SampleBatch) : List ℚ :=
  List.zipWith3 (fun r d s => r + (1 - d) * discount * rowMax (targetQ s))
    b.spanreward b.lastdone b.laststate

/-- The `SoftDQN.update`, abstracted over the session: the mini-batches drawn
from the trajectory data, each mapped to the target vector fed into
`self.target` for the train op. -/
def update (targetQ : Obs → List ℚ) (discount : ℚ) (batches : List SampleBatch) :
    List (List ℚ) :=
  batches.map (targetsFor targetQ discount)

/-- Insert a named parameter into a name-sorted list (`sorted(..., key=lambda v: v.name)`). -/
def insertByName (p : String × ℚ) : List (String × ℚ) → List (String × ℚ)
  | [] => [p]
  | q :: qs => if p.1 ≤ q.1 then p :: q :: qs else q :: insertByName p qs

/-- Sort a parameter list by variable name. -/
def sortByName (l : List (String × ℚ)) : List (String × ℚ) :=
  l.foldr insertByName []

/-- The `SoftDQN._get_update_target_op`: sort the trainable `qnet` parameters and
the `target` global variables by name, assert equal lengths, and build one
assign op `param2.assign(tau * (param1 - param2) + param2)` per pair.
The result is the new value for each target parameter, keyed by its name. -/
def getUpdateTargetOp (params1 params2 : List (String × ℚ)) :
    Option (List (String × ℚ)) :=
  let p1 := sortByName params1
  let p2 := sortByName params2
  if p1.length = p2.length then
    some ((p1.zip p2).map (fun pq => (pq.2.1, tau * (pq.1.2 - pq.2.2) + pq.2.2)))
  else none

/-- Running `self.train_op = tf.group(train_op, *self.update_target_op)` where
the update ops were built under `tf.control_dependencies([train_op])`: the
gradient step on the `qnet` parameters runs first, then every target
parameter is moved towards its (already updated) `qnet` partner. -/
def runTrainOp (gradStep : List (String × ℚ) → List (String × ℚ))
    (qnet tnet : List (String × ℚ)) :
    Option (List (String × ℚ) × List (String × ℚ)) :=
  let qnet1 := gradStep qnet
  match getUpdateTargetOp qnet1 tnet with
  | none => none
  | some tnet1 => some (qnet1, tnet1)

/-- The `np.argmax` over a row: index of the first occurrence of the maximum. -/
def argmaxAux (bi : ℕ) (bv : ℚ) (i : ℕ) : List ℚ → ℕ
  | [] => bi
  | x :: xs => if bv < x then argmaxAux i x (i + 1) xs else argmaxAux bi bv (i + 1) xs

/-- The `np.argmax(qvals, axis=1)` for one row (`0` on the empty row, where numpy
would raise instead). -/
def argmaxIdx : List ℚ → ℕ
  | [] => 0
  | x :: xs => argmaxAux 0 x 1 xs

/-- The `SoftDQN.get_action`, abstracted over the session and numpy's RNG:
`qnet` is the q-network, `randActs` the draws of
`np.random.randint(self.n_act, size=batch_size)`, `uniforms` the draws of
`np.random.uniform(size=batch_size)`.  Row `i` of the result is the greedy
action when `uniforms[i] > epsilon` and the random action otherwise. -/
def get_action (qnet : Obs → List ℚ) (obs : List Obs) (epsilon : ℚ)
    (randActs : List ℕ) (uniforms : List ℚ) : List ℕ :=
  let qvals := obs.map qnet
  List.zipWith3 (fun row u r => if epsilon < u then argmaxIdx row else r)
    qvals uniforms randActs

end SoftDQN

/-! ## Environment wrappers (`rlpack/environment/altered_atari_wrappers.py`) -/

variable {S : Type}

namespace NoopResetEnv

/-- The loop body of `NoopResetEnv.reset`, iterated `noops` times:
`obs, _, done, _ = self.env.step(self.noop_action)` and, on `done`,
`obs = self.env.reset(**kwargs)`.  Carries the current `obs` local
(`None` before the first iteration). -/
def noopLoop (E : GymEnv S) : ℕ → S → Option Obs → S × Option Obs
  | 0, s, obs => (s, obs)
  | n + 1, s, _ =>
    let r := E.step s 0
    if r.done then
      let q := E.reset r.s
      noopLoop E n q.1 (some q.2)
    else
      noopLoop E n r.s (some r.obs)

/-- The environment state reached after `n` iterations of the loop body. -/
def noopState (E : GymEnv S) (s : S) : ℕ → S
  | 0 => s
  | n + 1 =>
    let r := E.step (noopState E s n) 0
    if r.done then (E.reset r.s).1 else r.s

/-- The `NoopResetEnv.reset`: reset the wrapped env, pick
`noops = override_num_noops` when set and a uniform draw from
`[1, noop_max]` otherwise, `assert noops > 0` (`none` on failure), then run
the no-op loop. -/
def reset (E : GymEnv S) (noop_max : ℕ) (override : Option ℕ) (draw : ℕ) (s : S) :
    Option (S × Option Obs) :=
  let s1 := (E.reset s).1
  let noops := override.getD draw
  if 0 < noops then some (noopLoop E noops s1 none) else none

/-- The `NoopResetEnv.step`: `return self.env.step(ac)`. -/
def step (E : GymEnv S) (s : S) (ac : ℕ) : StepRes S := E.step s ac

end NoopResetEnv

namespace FireResetEnv

/-- The `FireResetEnv.step`: `return self.env.step(ac)`. -/
def step (E : GymEnv S) (s : S) (ac : ℕ) : StepRes S := E.step s ac

end FireResetEnv

namespace EpisodicLifeEnv

/-- The mutable attributes of `EpisodicLifeEnv` plus the wrapped env state. -/
structure State (S : Type) where
  env : S
  lives : ℕ
  was_real_done : Bool
  trajectory_length : ℕ
  trajectory_reward : ℚ

/-- The `EpisodicLifeEnv.__init__`: `lives = 0`, `was_real_done = True`,
trajectory counters zero. -/
def init (s : S) : State S :=
  { env := s, lives := 0, was_real_done := true,
    trajectory_length := 0, trajectory_reward := 0 }

/-- The `EpisodicLifeEnv.step`: forward to the wrapped step, record
`was_real_done`, log the episode on a real `done`, and force `done = True`
when the life count dropped while staying positive. -/
def step (E : GymEnv S) (st : State S) (action : ℕ) :
    State S × Obs × ℚ × Bool × StepInfo :=
  let r := E.step st.env action
  let len := st.trajectory_length + 1
  let rew := st.trajectory_reward + r.reward
  let info1 := if r.done then { r.info with episode := some (rew, len) } else r.info
  let len1 := if r.done then 0 else len
  let rew1 := if r.done then 0 else rew
  let lives := E.lives r.s
  let done1 := r.done || (decide (lives < st.lives) && decide (0 < lives))
  ({ env := r.s, lives := lives, was_real_done := r.done,
     trajectory_length := len1, trajectory_reward := rew1 },
   r.obs, r.reward, done1, info1)

/-- The `EpisodicLifeEnv.reset`: a real `self.env.reset` only when
`was_real_done`, otherwise a single no-op step; then re-read the lives. -/
def reset (E : GymEnv S) (st : State S) : State S × Obs :=
  let p :=
    if st.was_real_done then E.reset st.env
    else
      let r := E.step st.env 0
      (r.s, r.obs)
  ({ st with env := p.1, lives := E.lives p.1 }, p.2)

end EpisodicLifeEnv

namespace MaxAndSkipEnv

/-- The mutable attributes of `MaxAndSkipEnv`: the wrapped env state, the
two-slot observation buffer (`np.zeros` initially) and `skip`. -/
structure State (S : Type) where
  env : S
  buf0 : Obs
  buf1 : Obs
  skip : ℕ

/-- The `MaxAndSkipEnv.__init__` with observation dimension `d`. -/
def init (s : S) (d : ℕ) (skip : ℕ) : State S :=
  { env := s, buf0 := List.replicate d 0, buf1 := List.replicate d 0, skip := skip }

/-- The `for i in range(self._skip)` loop of `MaxAndSkipEnv.step`: step the
wrapped env, store the raw observation in buffer slot 0 at `i = skip - 2`
and slot 1 at `i = skip - 1`, accumulate the reward, and break on `done`.
`fuel` is the number of iterations left (`skip - i`); the result is the
loop's local state at exit, `none` when no iteration ran at all (then the
Python code would crash reading the unbound `info`). -/
def loop (E : GymEnv S) (a : ℕ) (skip : ℕ) :
    ℕ → ℕ → S → Obs → Obs → ℚ → Option (S × Obs × Obs × ℚ × Bool × StepInfo)
  | 0, _, _, _, _, _ => none
  | fuel + 1, i, s, b0, b1, total =>
    let r := E.step s a
    let b0' := if (i : ℤ) = (skip : ℤ) - 2 then r.obs else b0
    let b1' := if (i : ℤ) = (skip : ℤ) - 1 then r.obs else b1
    let total' := total + r.reward
    if r.done then some (r.s, b0', b1', total', r.done, r.info)
    else
      match loop E a skip fuel (i + 1) r.s b0' b1' total' with
      | none => some (r.s, b0', b1', total', r.done, r.info)
      | some out => some out

/-- The `MaxAndSkipEnv.step`: run the skip loop from `i = 0`, then return the
elementwise max of the two buffer slots, the summed reward (also written to
`info["real_reward"]`) and the final done flag (also `info["real_done"]`). -/
def step (E : GymEnv S) (st : State S) (a : ℕ) :
    Option (State S × Obs × ℚ × Bool × StepInfo) :=
  match loop E a st.skip st.skip 0 st.env st.buf0 st.buf1 0 with
  | none => none
  | some (s, b0, b1, total, done1, info) =>
    let max_frame := List.zipWith max b0 b1
    let info' := { info with realReward := some total, realDone := some done1 }
    some ({ st with env := s, buf0 := b0, buf1 := b1 }, max_frame, total, done1, info')

/-- The `MaxAndSkipEnv.reset`: `return self.env.reset(**kwargs)`. -/
def reset (E : GymEnv S) (st : State S) : State S × Obs :=
  let q := E.reset st.env
  ({ st with env := q.1 }, q.2)

end MaxAndSkipEnv

namespace MaxAndSkipEnv

/-- The first `n` results of repeatedly stepping the wrapped env with a
fixed action: the inner steps the skip loop could perform. -/
def stepsFrom (E : GymEnv S) (a : ℕ) : ℕ → S → List (StepRes S)
  | 0, _ => []
  | n + 1, s =>
    let r := E.step s a
    r :: stepsFrom E a n r.s

/-- The prefix of a step trace the loop actually executes: everything up to
and including the first `done` result. -/
def execPref : List (StepRes S) → List (StepRes S)
  | [] => []
  | r :: rs => if r.done then [r] else r :: execPref rs

/-- The env state after a list of executed steps (default `s` when none ran). -/
def lastS (s : S) : List (StepRes S) → S
  | [] => s
  | r :: rs => lastS r.s rs

/-- The `info` local after a list of executed steps. -/
def lastInfo (d : StepInfo) : List (StepRes S) → StepInfo
  | [] => d
  | r :: rs => lastInfo r.info rs

/-- The observation of the executed step at (signed) index `j`, or `dflt`
when no such step was executed. -/
def obsAt (j : ℤ) (dflt : Obs) (ex : List (StepRes S)) : Obs :=
  if 0 ≤ j then (ex.map (fun r => r.obs)).getD j.toNat dflt else dflt

end MaxAndSkipEnv

namespace FrameStack

/-- The mutable attributes of `FrameStack`: the wrapped env state and the
deque `frames` with `maxlen = k`. -/
structure State (S : Type) where
  env : S
  frames : List Obs
  k : ℕ

/-- The `FrameStack.__init__`: empty deque. -/
def init (s : S) (k : ℕ) : State S :=
  { env := s, frames := [], k := k }

/-- The `deque.append` with `maxlen = k`: push right, evict from the left when
the length exceeds `k`. -/
def dequeAppend (k : ℕ) (fs : List Obs) (x : Obs) : List Obs :=
  let l := fs ++ [x]
  l.drop (l.length - k)

/-- The `n` repetitions of `self.frames.append(ob)` (the reset loop). -/
def appendN (k : ℕ) (fs : List Obs) (ob : Obs) : ℕ → List Obs
  | 0 => fs
  | n + 1 => dequeAppend k (appendN k fs ob n) ob

/-- The `FrameStack._get_ob`: `assert len(self.frames) == self.k` (`none` when it
fires), then `LazyFrames(list(self.frames))`, whose `_force` concatenates the
frames along the last axis. -/
def getOb (st : State S) : Option Obs :=
  if st.frames.length = st.k then some st.frames.flatten else none

/-- The `FrameStack.reset`: reset the wrapped env and append its observation `k`
times. -/
def reset (E : GymEnv S) (st : State S) : State S × Option Obs :=
  let q := E.reset st.env
  let st' := { st with env := q.1, frames := appendN st.k st.frames q.2 st.k }
  (st', getOb st')

/-- The `FrameStack.step`: step the wrapped env and append the new observation. -/
def step (E : GymEnv S) (st : State S) (a : ℕ) :
    State S × Option Obs × ℚ × Bool × StepInfo :=
  let r := E.step st.env a
  let st' := { st with env := r.s, frames := dequeAppend st.k st.frames r.obs }
  (st', (getOb st', r.reward, r.done, r.info))

/-- One fold step of an execution: apply `step` and keep state and
observation. -/
def runStep (E : GymEnv S) (p : State S × Option Obs) (a : ℕ) : State S × Option Obs :=
  let q := step E p.1 a
  (q.1, q.2.1)

/-- An execution that starts with `reset` and then performs the given
actions; returns the final state and the last observation returned. -/
def run (E : GymEnv S) (st : State S) (acts : List ℕ) : State S × Option Obs :=
  acts.foldl (runStep E) (reset E st)

end FrameStack

/-! ## Environment construction (`old_make_atari`, `wrap_deepmind`, `make_*`) -/

/-- The wrapper chains the factory functions can build, as syntax trees: the
base env of `gym.make` (with its spec id and action meanings) and one
constructor per wrapper class. -/
inductive Env where
  | base (id : String) (meanings : List String)
  | noopResetW (e : Env) (noop_max : ℕ)
  | maxAndSkipW (e : Env) (skip : ℕ)
  | episodicLifeW (e : Env)
  | fireResetW (e : Env)
  | warpFrameW (e : Env) (width height : ℕ) (grayscale : Bool)
  | scaledFloatW (e : Env)
  | clipRewardW (e : Env)
  | frameStackW (e : Env) (k : ℕ)
  | neverStopW (e : Env)
  | ramStackW (e : Env)
  | ramStack2W (e : Env)
deriving DecidableEq, Repr

/-- The `env.unwrapped.get_action_meanings()`: read through every wrapper. -/
def Env.meanings : Env → List String
  | .base _ ms => ms
  | .noopResetW e _ => e.meanings
  | .maxAndSkipW e _ => e.meanings
  | .episodicLifeW e => e.meanings
  | .fireResetW e => e.meanings
  | .warpFrameW e _ _ _ => e.meanings
  | .scaledFloatW e => e.meanings
  | .clipRewardW e => e.meanings
  | .frameStackW e _ => e.meanings
  | .neverStopW e => e.meanings
  | .ramStackW e => e.meanings
  | .ramStack2W e => e.meanings

/-- The `env.spec.id`: the id the base env was made with. -/
def Env.specId : Env → String
  | .base i _ => i
  | .noopResetW e _ => e.specId
  | .maxAndSkipW e _ => e.specId
  | .episodicLifeW e => e.specId
  | .fireResetW e => e.specId
  | .warpFrameW e _ _ _ => e.specId
  | .scaledFloatW e => e.specId
  | .clipRewardW e => e.specId
  | .frameStackW e _ => e.specId
  | .neverStopW e => e.specId
  | .ramStackW e => e.specId
  | .ramStack2W e => e.specId

/-- Whether `ScaledFloatFrame` occurs anywhere in the wrapper chain. -/
def Env.hasScaled : Env → Bool
  | .base _ _ => false
  | .noopResetW e _ => e.hasScaled
  | .maxAndSkipW e _ => e.hasScaled
  | .episodicLifeW e => e.hasScaled
  | .fireResetW e => e.hasScaled
  | .warpFrameW e _ _ _ => e.hasScaled
  | .scaledFloatW _ => true
  | .clipRewardW e => e.hasScaled
  | .frameStackW e _ => e.hasScaled
  | .neverStopW e => e.hasScaled
  | .ramStackW e => e.hasScaled
  | .ramStack2W e => e.hasScaled

/-- The `gym.make(env_id)`. -/
def gym_make (env_id : String) (meanings : List String) : Env :=
  .base env_id meanings

/-- The `NoopResetEnv.__init__`: asserts the first action meaning is `NOOP`. -/
def mkNoopReset (e : Env) (noop_max : ℕ) : Option Env :=
  if e.meanings.getD 0 "" = "NOOP" then some (.noopResetW e noop_max) else none

/-- The `FireResetEnv.__init__`: asserts the second action meaning is `FIRE` and
that there are at least 3 actions. -/
def mkFireReset (e : Env) : Option Env :=
  if e.meanings.getD 1 "" = "FIRE" ∧ 3 ≤ e.meanings.length then
    some (.fireResetW e)
  else none

/-- The `old_make_atari`: `gym.make`, assert `'NoFrameskip' in env.spec.id`, then
`NoopResetEnv(env, noop_max=30)` and `MaxAndSkipEnv(env, skip=4)`. -/
def old_make_atari (env_id : String) (meanings : List String) : Option Env :=
  let env := gym_make env_id meanings
  if "NoFrameskip".data <:+: env.specId.data then
    match mkNoopReset env 30 with
    | none => none
    | some e => some (.maxAndSkipW e 4)
  else none

/-- The `wrap_deepmind`: `EpisodicLifeEnv` when `episode_life`, `FireResetEnv`
when `'FIRE'` is among the action meanings, then `WarpFrame`,
`ScaledFloatFrame`, `ClipRewardEnv` and `FrameStack(…, 4)` as flagged. -/
def wrap_deepmind (env : Env) (episode_life clip_rewards frame_stack scale warp : Bool) :
    Option Env :=
  let e1 := if episode_life then Env.episodicLifeW env else env
  let e2 := if "FIRE" ∈ e1.meanings then mkFireReset e1 else some e1
  match e2 with
  | none => none
  | some e3 =>
    let e4 := if warp then Env.warpFrameW e3 84 84 true else e3
    let e5 := if scale then Env.scaledFloatW e4 else e4
    let e6 := if clip_rewards then Env.clipRewardW e5 else e5
    let e7 := if frame_stack then Env.frameStackW e6 4 else e6
    some e7

/-- The `make_atari`: assert the name contains `NoFrameskip` but not
`ramNoFrameskip`, then `old_make_atari` and `wrap_deepmind` with
`episode_life=True, clip_rewards=True, frame_stack=True, scale=False`. -/
def make_atari (env_name : String) (meanings : List String) : Option Env :=
  if "NoFrameskip".data <:+: env_name.data ∧ ¬ "ramNoFrameskip".data <:+: env_name.data then
    match old_make_atari env_name meanings with
    | none => none
    | some env => wrap_deepmind env true true true false true
  else none

/-- The `make_ram_atari`: assert the name contains `ramNoFrameskip`, then
`old_make_atari`, `wrap_deepmind` without warping, and `RamStack`. -/
def make_ram_atari (env_name : String) (meanings : List String) : Option Env :=
  if "ramNoFrameskip".data <:+: env_name.data then
    match old_make_atari env_name meanings with
    | none => none
    | some env =>
      match wrap_deepmind env true true true false false with
      | none => none
      | some e => some (.ramStackW e)
  else none

/-- The `make_ram_atari2`: assert the name contains `ramNoFrameskip`, then
`old_make_atari`, `wrap_deepmind` without warping, `NeverStop`, `RamStack2`. -/
def make_ram_atari2 (env_name : String) (meanings : List String) : Option Env :=
  if "ramNoFrameskip".data <:+: env_name.data then
    match old_make_atari env_name meanings with
    | none => none
    | some env =>
      match wrap_deepmind env true true true false false with
      | none => none
      | some e => some (.ramStack2W (.neverStopW e))
  else none

namespace FrameStack

/-- The last `k` elements of a list (what a `maxlen = k` deque retains). -/
def lastN (k : ℕ) (l : List Obs) : List Obs :=
  l.drop (l.length - k)

end FrameStack

/-- The observations produced by the wrapped env along a list of actions. -/
def innerTrace (E : GymEnv S) : S → List ℕ → List Obs
  | _, [] => []
  | s, a :: acts =>
    let r := E.step s a
    r.obs :: innerTrace E r.s acts

/-- The wrapped env state after a list of actions. -/
def innerLastS (E : GymEnv S) : S → List ℕ → S
  | s, [] => s
  | s, a :: acts => innerLastS E (E.step s a).s acts

/-- A tiny concrete environment: lives = `5 - state`, never done. -/
def livesEnv : GymEnv ℕ :=
  { reset := fun _ => (0, [0]),
    step := fun s _ => { s := s + 1, obs := [s + 1], reward := 0, done := false, info := {} },
    lives := fun s => 5 - s }

/-- A concrete environment whose every step is terminal, with a reset
observation different from the step observation. -/
def cexEnv : GymEnv ℕ :=
  { reset := fun _ => (0, [2]),
    step := fun s _ => { s := s + 1, obs := [1], reward := 0, done := true, info := {} },
    lives := fun _ => 0 }

/-- A concrete environment that counts steps and is never done. -/
def countEnv : GymEnv ℚ :=
  { reset := fun _ => (100, [7]),
    step := fun s _ => { s := s + 1, obs := [s], reward := 1, done := false, info := {} },
    lives := fun _ => 1 }

/-! ## Helper lemmas -/

lemma length_zipWith3 {α β γ δ : Type} (f : α → β → γ → δ) :
    ∀ (xs : List α) (ys : List β) (zs : List γ),
      (List.zipWith3 f xs ys zs).length = min xs.length (min ys.length zs.length)
  | [], _, _ => by simp [List.zipWith3]
  | _ :: _, [], _ => by simp [List.zipWith3]
  | _ :: _, _ :: _, [] => by simp [List.zipWith3]
  | x :: xs, y :: ys, z :: zs => by
    simp only [List.zipWith3, List.length_cons, length_zipWith3 f xs ys zs]
    omega

lemma getD_zipWith3 {α β γ δ : Type} (f : α → β → γ → δ) (da : α) (db : β) (dc : γ) (dd : δ) :
    ∀ (xs : List α) (ys : List β) (zs : List γ) (i : ℕ),
      i < (List.zipWith3 f xs ys zs).length →
      (List.zipWith3 f xs ys zs).getD i dd = f (xs.getD i da) (ys.getD i db) (zs.getD i dc)
  | [], _, _, _, h => by simp [List.zipWith3] at h
  | _ :: _, [], _, _, h => by simp [List.zipWith3] at h
  | _ :: _, _ :: _, [], _, h => by simp [List.zipWith3] at h
  | x :: xs, y :: ys, z :: zs, 0, _ => by simp [List.zipWith3]
  | x :: xs, y :: ys, z :: zs, i + 1, h => by
    simp only [List.zipWith3, List.getD_cons_succ]
    exact getD_zipWith3 f da db dc dd xs ys zs i (by
      simpa [List.zipWith3] using Nat.lt_of_succ_lt_succ h)

lemma argmaxAux_lt (xs : List ℚ) :
    ∀ (bi : ℕ) (bv : ℚ) (i : ℕ), bi < i → SoftDQN.argmaxAux bi bv i xs < i + xs.length := by
  induction xs with
  | nil => intro bi bv i h; simpa [SoftDQN.argmaxAux] using h.trans_le (Nat.le_add_right i 0)
  | cons x xs ih =>
    intro bi bv i h
    simp only [SoftDQN.argmaxAux]
    by_cases hc : bv < x
    · rw [if_pos hc]
      have := ih i x (i + 1) (Nat.lt_succ_self i)
      simpa [Nat.add_assoc, Nat.add_comm 1 xs.length] using this
    · rw [if_neg hc]
      have := ih bi bv (i + 1) (h.trans (Nat.lt_succ_self i))
      simpa [Nat.add_assoc, Nat.add_comm 1 xs.length] using this

lemma argmaxIdx_lt (l : List ℚ) (h : l ≠ []) : SoftDQN.argmaxIdx l < l.length := by
  match l with
  | [] => exact absurd rfl h
  | x :: xs =>
    have := argmaxAux_lt xs 0 x 1 Nat.one_pos
    simpa [SoftDQN.argmaxIdx, Nat.add_comm 1 xs.length] using this

/-! ## Claims -/

/-- C1: for every mini-batch that `SoftDQN.update` processes, the regression
target for each transition equals
`spanreward + (1 - lastdone) * discount * max(target Q at laststate)`; in
particular, a terminal transition (`lastdone = 1`) gets the span reward
alone. -/
theorem C1_update_targets (targetQ : Obs → List ℚ) (discount : ℚ)
    (batches : List SoftDQN.SampleBatch) (b : SoftDQN.SampleBatch) (hb : b ∈ batches)
    (i : ℕ) (hi : i < (SoftDQN.targetsFor targetQ discount b).length) :
    SoftDQN.targetsFor targetQ discount b ∈ SoftDQN.update targetQ discount batches ∧
    (SoftDQN.targetsFor targetQ discount b).getD i 0 =
      b.spanreward.getD i 0 + (1 - b.lastdone.getD i 0) * discount *
        SoftDQN.rowMax (targetQ (b.laststate.getD i [])) ∧
    (b.lastdone.getD i 0 = 1 →
      (SoftDQN.targetsFor targetQ discount b).getD i 0 = b.spanreward.getD i 0) := by
  have hget := getD_zipWith3
    (fun r d s => r + (1 - d) * discount * SoftDQN.rowMax (targetQ s))
    (0 : ℚ) (0 : ℚ) ([] : Obs) (0 : ℚ) b.spanreward b.lastdone b.laststate i hi
  refine ⟨List.mem_map_of_mem _ hb, hget, fun hdone => ?_⟩
  simp only [SoftDQN.targetsFor] at hget ⊢
  rw [hget, hdone]
  ring

/-- C1 witness: a concrete batch evaluated through the theorem. -/
theorem C1_update_targets_witness :
    (SoftDQN.targetsFor (fun _ => [1, 2]) (1 / 2)
        ⟨[[0]], [0], [3], [[5]], [0]⟩).getD 0 0 = 4 := by
  have h := C1_update_targets (fun _ => [1, 2]) (1 / 2)
    [⟨[[0]], [0], [3], [[5]], [0]⟩] ⟨[[0]], [0], [3], [[5]], [0]⟩
    (List.mem_singleton.mpr rfl) 0 (by decide)
  rw [h.2.1]
  norm_num [SoftDQN.rowMax]

/-- C2: every run of SoftDQN's training op also synchronizes the target
network, sequenced after the gradient step: with `tau = 0.001`, each target
parameter `p2` is assigned `tau * (p1 - p2) + p2`, where `p1` is the
trainable `qnet` parameter paired with it by sorting both lists by variable
name, the two sorted lists being required to have equal length. -/
theorem C2_train_op_target_sync (gradStep : List (String × ℚ) → List (String × ℚ))
    (qnet tnet : List (String × ℚ)) :
    SoftDQN.tau = 1 / 1000 ∧
    ((SoftDQN.sortByName (gradStep qnet)).length ≠ (SoftDQN.sortByName tnet).length →
      SoftDQN.runTrainOp gradStep qnet tnet = none) ∧
    ((SoftDQN.sortByName (gradStep qnet)).length = (SoftDQN.sortByName tnet).length →
      SoftDQN.runTrainOp gradStep qnet tnet =
        some (gradStep qnet,
          ((SoftDQN.sortByName (gradStep qnet)).zip (SoftDQN.sortByName tnet)).map
            (fun pq => (pq.2.1, SoftDQN.tau * (pq.1.2 - pq.2.2) + pq.2.2)))) := by
  refine ⟨rfl, fun h => ?_, fun h => ?_⟩
  · simp only [SoftDQN.runTrainOp, SoftDQN.getUpdateTargetOp, if_neg h]
  · simp only [SoftDQN.runTrainOp, SoftDQN.getUpdateTargetOp, if_pos h]

/-- C2 witness: one parameter per network, evaluated through the theorem. -/
theorem C2_train_op_target_sync_witness :
    SoftDQN.runTrainOp (fun l => l.map (fun p => (p.1, p.2 + 1)))
      [("qnet/w", 1)] [("target_qnet/w", 0)] =
      some ([("qnet/w", 2)], [("target_qnet/w", 1 / 500)]) := by
  have h := (C2_train_op_target_sync (fun l => l.map (fun p => (p.1, p.2 + 1)))
    [("qnet/w", 1)] [("target_qnet/w", 0)]).2.2 (by decide)
  rw [h]
  norm_num [SoftDQN.sortByName, SoftDQN.insertByName, SoftDQN.tau]

/-- C7: `SoftDQN.get_action` returns one action per observation; entry `i` is
the argmax of the q-network's row for observation `i` when the `i`-th uniform
draw exceeds `epsilon`, and the random draw otherwise; every returned action
lies in `[0, n_act)`. -/
theorem C7_get_action (n_act : ℕ) (qnet : Obs → List ℚ) (obs : List Obs)
    (epsilon : ℚ) (randActs : List ℕ) (uniforms : List ℚ)
    (hlr : randActs.length = obs.length) (hlu : uniforms.length = obs.length)
    (hrand : ∀ r ∈ randActs, r < n_act)
    (hq : ∀ o, (qnet o).length = n_act) (hn : 0 < n_act) :
    (SoftDQN.get_action qnet obs epsilon randActs uniforms).length = obs.length ∧
    ∀ i, i < obs.length →
      (SoftDQN.get_action qnet obs epsilon randActs uniforms).getD i 0 =
        (if epsilon < uniforms.getD i 0 then SoftDQN.argmaxIdx (qnet (obs.getD i []))
         else randActs.getD i 0) ∧
      (SoftDQN.get_action qnet obs epsilon randActs uniforms).getD i 0 < n_act := by
  have hlen : (SoftDQN.get_action qnet obs epsilon randActs uniforms).length = obs.length := by
    simp only [SoftDQN.get_action, length_zipWith3, List.length_map]
    omega
  refine ⟨hlen, fun i hi => ?_⟩
  have hget := getD_zipWith3 (fun row u r => if epsilon < u then SoftDQN.argmaxIdx row else r)
    ([] : List ℚ) (0 : ℚ) (0 : ℕ) (0 : ℕ) (obs.map qnet) uniforms randActs i
    (by simp only [SoftDQN.get_action] at hlen; omega)
  have hmap : (obs.map qnet).getD i [] = qnet (obs.getD i []) := by
    rw [List.getD_eq_getElem?_getD, List.getD_eq_getElem?_getD,
      List.getElem?_map, List.getElem?_eq_getElem (by omega : i < obs.length)]
    simp
  simp only [SoftDQN.get_action] at hget ⊢
  rw [hget, hmap]
  refine ⟨rfl, ?_⟩
  by_cases hc : epsilon < uniforms.getD i 0
  · rw [if_pos hc]
    have hne : qnet (obs.getD i []) ≠ [] := by
      intro hnil
      have := hq (obs.getD i [])
      rw [hnil] at this
      simp at this
      omega
    have := argmaxIdx_lt (qnet (obs.getD i [])) hne
    rwa [hq] at this
  · rw [if_neg hc]
    apply hrand
    have hilt : i < randActs.length := by omega
    rw [List.getD_eq_getElem _ _ hilt]
    exact List.getElem_mem hilt

/-- C7 witness: a batch of one observation, greedy branch, through the theorem. -/
theorem C7_get_action_witness :
    (SoftDQN.get_action (fun _ => [0, 1]) [[0]] (1 / 2) [0] [1]).getD 0 0 < 2 := by
  exact ((C7_get_action 2 (fun _ => [0, 1]) [[0]] (1 / 2) [0] [1] rfl rfl
    (by decide) (fun _ => rfl) (by decide)).2 0 (by decide)).2

/-- C9: pass-through operations are exact: `NoopResetEnv.step` and
`FireResetEnv.step` return precisely the wrapped step's result, and
`MaxAndSkipEnv.reset` returns precisely the wrapped reset's result, leaving
its own buffers untouched. -/
theorem C9_passthrough (E : GymEnv S) (s : S) (a : ℕ) (st : MaxAndSkipEnv.State S) :
    NoopResetEnv.step E s a = E.step s a ∧
    FireResetEnv.step E s a = E.step s a ∧
    (MaxAndSkipEnv.reset E st).2 = (E.reset st.env).2 ∧
    (MaxAndSkipEnv.reset E st).1.env = (E.reset st.env).1 ∧
    (MaxAndSkipEnv.reset E st).1.buf0 = st.buf0 ∧
    (MaxAndSkipEnv.reset E st).1.buf1 = st.buf1 :=
  ⟨rfl, rfl, rfl, rfl, rfl, rfl⟩

/-- C10: `make_atari` fails its entry assertion unless the name contains
`NoFrameskip` and not `ramNoFrameskip`; `make_ram_atari` and
`make_ram_atari2` fail theirs unless the name contains `ramNoFrameskip`. -/
theorem C10_entry_asserts (env_name : String) (meanings : List String) :
    (¬ ("NoFrameskip".data <:+: env_name.data ∧
        ¬ "ramNoFrameskip".data <:+: env_name.data) →
      make_atari env_name meanings = none) ∧
    (¬ "ramNoFrameskip".data <:+: env_name.data →
      make_ram_atari env_name meanings = none ∧
      make_ram_atari2 env_name meanings = none) := by
  refine ⟨fun h => ?_, fun h => ⟨?_, ?_⟩⟩
  · simp only [make_atari]
    rw [if_neg h]
  · simp only [make_ram_atari]
    rw [if_neg h]
  · simp only [make_ram_atari2]
    rw [if_neg h]

/-- C10 witness: concrete names rejected through the theorem. -/
theorem C10_entry_asserts_witness :
    make_atari "Pong-v4" [] = none ∧
    make_ram_atari "PongNoFrameskip-v4" [] = none ∧
    make_ram_atari2 "PongNoFrameskip-v4" [] = none :=
  ⟨(C10_entry_asserts "Pong-v4" []).1 (by decide),
   ((C10_entry_asserts "PongNoFrameskip-v4" []).2 (by decide)).1,
   ((C10_entry_asserts "PongNoFrameskip-v4" []).2 (by decide)).2⟩

/-- C3: `EpisodicLifeEnv.step` reports `done = True` whenever the life count
drops below the recorded value while staying positive, even when the wrapped
env reported `done = False`; `EpisodicLifeEnv.reset` really resets the
wrapped env only when `was_real_done` (the last underlying `done`), and
otherwise advances by a single no-op step and returns that observation. -/
theorem C3_episodic_life (E : GymEnv S) (st : EpisodicLifeEnv.State S) (a : ℕ) :
    (E.lives (E.step st.env a).s < st.lives → 0 < E.lives (E.step st.env a).s →
      (EpisodicLifeEnv.step E st a).2.2.2.1 = true) ∧
    ((EpisodicLifeEnv.step E st a).2.2.2.1 =
      ((E.step st.env a).done ||
        (decide (E.lives (E.step st.env a).s < st.lives) &&
         decide (0 < E.lives (E.step st.env a).s)))) ∧
    (st.was_real_done = true →
      (EpisodicLifeEnv.reset E st).1.env = (E.reset st.env).1 ∧
      (EpisodicLifeEnv.reset E st).2 = (E.reset st.env).2) ∧
    (st.was_real_done = false →
      (EpisodicLifeEnv.reset E st).1.env = (E.step st.env 0).s ∧
      (EpisodicLifeEnv.reset E st).2 = (E.step st.env 0).obs) := by
  refine ⟨fun h1 h2 => ?_, rfl, fun h => ?_, fun h => ?_⟩
  · simp only [EpisodicLifeEnv.step, Bool.or_eq_true, Bool.and_eq_true, decide_eq_true_eq]
    exact Or.inr ⟨h1, h2⟩
  · simp [EpisodicLifeEnv.reset, h]
  · simp [EpisodicLifeEnv.reset, h]


/-- C3 witness: a life is lost without the wrapped env being done, through
the theorem. -/
theorem C3_episodic_life_witness :
    (EpisodicLifeEnv.step livesEnv
      { env := 0, lives := 5, was_real_done := false,
        trajectory_length := 0, trajectory_reward := 0 } 0).2.2.2.1 = true ∧
    (EpisodicLifeEnv.reset livesEnv
      { env := 0, lives := 5, was_real_done := false,
        trajectory_length := 0, trajectory_reward := 0 }).2 = [1] := by
  constructor
  · exact (C3_episodic_life livesEnv
      { env := 0, lives := 5, was_real_done := false,
        trajectory_length := 0, trajectory_reward := 0 } 0).1 (by decide) (by decide)
  · have h := ((C3_episodic_life livesEnv
      { env := 0, lives := 5, was_real_done := false,
        trajectory_length := 0, trajectory_reward := 0 } 0).2.2.2 rfl).2
    rw [h]
    norm_num [livesEnv]

/-- C5: `make_atari(env_name)` wraps `gym.make(env_name)` in exactly the
order `NoopResetEnv(noop_max=30)`, `MaxAndSkipEnv(skip=4)`,
`EpisodicLifeEnv`, `FireResetEnv` (only when `FIRE` is an action meaning),
`WarpFrame`, `ClipRewardEnv`, `FrameStack(k=4)`, and never applies
`ScaledFloatFrame`. -/
theorem C5_make_atari_chain (env_name : String) (meanings : List String)
    (h1 : "NoFrameskip".data <:+: env_name.data)
    (h2 : ¬ "ramNoFrameskip".data <:+: env_name.data)
    (h3 : meanings.getD 0 "" = "NOOP")
    (h4 : "FIRE" ∈ meanings → meanings.getD 1 "" = "FIRE" ∧ 3 ≤ meanings.length) :
    make_atari env_name meanings =
      some (Env.frameStackW (Env.clipRewardW (Env.warpFrameW
        (if "FIRE" ∈ meanings then
          Env.fireResetW (Env.episodicLifeW
            (Env.maxAndSkipW (Env.noopResetW (Env.base env_name meanings) 30) 4))
         else
          Env.episodicLifeW
            (Env.maxAndSkipW (Env.noopResetW (Env.base env_name meanings) 30) 4))
        84 84 true)) 4) ∧
    ∀ e, make_atari env_name meanings = some e → e.hasScaled = false := by
  have hm : make_atari env_name meanings =
      some (Env.frameStackW (Env.clipRewardW (Env.warpFrameW
        (if "FIRE" ∈ meanings then
          Env.fireResetW (Env.episodicLifeW
            (Env.maxAndSkipW (Env.noopResetW (Env.base env_name meanings) 30) 4))
         else
          Env.episodicLifeW
            (Env.maxAndSkipW (Env.noopResetW (Env.base env_name meanings) 30) 4))
        84 84 true)) 4) := by
    have hold : old_make_atari env_name meanings =
        some (Env.maxAndSkipW (Env.noopResetW (Env.base env_name meanings) 30) 4) := by
      simp only [old_make_atari, gym_make, Env.specId, mkNoopReset, Env.meanings, h1, h3,
        eq_self_iff_true, if_true]
    have hwrap :
        wrap_deepmind (Env.maxAndSkipW (Env.noopResetW (Env.base env_name meanings) 30) 4)
          true true true false true =
        some (Env.frameStackW (Env.clipRewardW (Env.warpFrameW
          (if "FIRE" ∈ meanings then
            Env.fireResetW (Env.episodicLifeW
              (Env.maxAndSkipW (Env.noopResetW (Env.base env_name meanings) 30) 4))
           else
            Env.episodicLifeW
              (Env.maxAndSkipW (Env.noopResetW (Env.base env_name meanings) 30) 4))
          84 84 true)) 4) := by
      by_cases hF : "FIRE" ∈ meanings
      · simp only [wrap_deepmind, Env.meanings, mkFireReset, hF, (h4 hF).1, (h4 hF).2,
          eq_self_iff_true, and_self, if_true, Bool.false_eq_true, if_false]
      · simp only [wrap_deepmind, Env.meanings, hF, if_false, if_true, eq_self_iff_true,
          Bool.false_eq_true]
    simp only [make_atari, h1, h2, not_false_iff, and_self, if_true, eq_self_iff_true]
    rw [hold]
    exact hwrap
  refine ⟨hm, fun e he => ?_⟩
  rw [hm] at he
  injection he with he'
  subst he'
  by_cases hF : "FIRE" ∈ meanings
  · simp [Env.hasScaled, hF]
  · simp [Env.hasScaled, hF]

/-- C5 witness: the chain built for a Breakout-style name, through the theorem. -/
theorem C5_make_atari_chain_witness :
    make_atari "BreakoutNoFrameskip-v4" ["NOOP", "FIRE", "RIGHT"] =
      some (Env.frameStackW (Env.clipRewardW (Env.warpFrameW
        (Env.fireResetW (Env.episodicLifeW (Env.maxAndSkipW
          (Env.noopResetW (Env.base "BreakoutNoFrameskip-v4" ["NOOP", "FIRE", "RIGHT"]) 30) 4)))
        84 84 true)) 4) := by
  have h := (C5_make_atari_chain "BreakoutNoFrameskip-v4" ["NOOP", "FIRE", "RIGHT"]
    (by decide) (by decide) (by decide) (fun _ => by decide)).1
  rw [h]
  decide

lemma lastN_length (k : ℕ) (l : List Obs) :
    (FrameStack.lastN k l).length = min k l.length := by
  simp only [FrameStack.lastN, List.length_drop]
  omega

lemma lastN_of_le (k : ℕ) (l : List Obs) (h : l.length ≤ k) :
    FrameStack.lastN k l = l := by
  simp [FrameStack.lastN, Nat.sub_eq_zero_of_le h]

lemma dequeAppend_eq_lastN (k : ℕ) (fs : List Obs) (x : Obs) :
    FrameStack.dequeAppend k fs x = FrameStack.lastN k (fs ++ [x]) := rfl

lemma lastN_append_lastN (k : ℕ) (l m : List Obs) :
    FrameStack.lastN k (FrameStack.lastN k l ++ m) = FrameStack.lastN k (l ++ m) := by
  rcases le_or_lt l.length k with h | h
  · rw [lastN_of_le k l h]
  · simp only [FrameStack.lastN, List.length_append, List.length_drop]
    rw [List.drop_append_eq_append_drop, List.drop_append_eq_append_drop, List.drop_drop]
    simp only [List.length_drop]
    congr 1
    · congr 1
      omega
    · congr 1
      omega

lemma appendN_eq (k : ℕ) (ob : Obs) (fs : List Obs) (h : fs.length ≤ k) :
    ∀ n, FrameStack.appendN k fs ob n = FrameStack.lastN k (fs ++ List.replicate n ob)
  | 0 => by
    simp only [FrameStack.appendN, List.replicate_zero, List.append_nil]
    exact (lastN_of_le k fs h).symm
  | n + 1 => by
    rw [FrameStack.appendN, appendN_eq k ob fs h n, dequeAppend_eq_lastN, lastN_append_lastN,
      List.append_assoc, ← List.replicate_succ']

lemma reset_frames (E : GymEnv S) (st : FrameStack.State S) (h : st.frames.length ≤ st.k) :
    (FrameStack.reset E st).1.frames = List.replicate st.k (E.reset st.env).2 := by
  show FrameStack.appendN st.k st.frames (E.reset st.env).2 st.k = _
  rw [appendN_eq st.k _ st.frames h st.k]
  simp [FrameStack.lastN, List.length_append, Nat.add_sub_cancel, List.drop_left]

lemma getOb_lastN (s : S) (k : ℕ) (L : List Obs) (h : k ≤ L.length) :
    FrameStack.getOb (FrameStack.State.mk s (FrameStack.lastN k L) k) =
      some (FrameStack.lastN k L).flatten := by
  simp [FrameStack.getOb, lastN_length, Nat.min_eq_left h]

lemma run_foldl_spec (E : GymEnv S) (k : ℕ) :
    ∀ (acts : List ℕ) (s : S) (L : List Obs), k ≤ L.length →
      acts.foldl (FrameStack.runStep E)
        (FrameStack.State.mk s (FrameStack.lastN k L) k,
         some (FrameStack.lastN k L).flatten) =
      (FrameStack.State.mk (innerLastS E s acts)
         (FrameStack.lastN k (L ++ innerTrace E s acts)) k,
       some (FrameStack.lastN k (L ++ innerTrace E s acts)).flatten)
  | [], s, L, h => by simp [innerLastS, innerTrace]
  | a :: acts, s, L, h => by
    rw [List.foldl_cons]
    have hstep : FrameStack.runStep E
        (FrameStack.State.mk s (FrameStack.lastN k L) k,
         some (FrameStack.lastN k L).flatten) a =
        (FrameStack.State.mk (E.step s a).s
           (FrameStack.lastN k (L ++ [(E.step s a).obs])) k,
         some (FrameStack.lastN k (L ++ [(E.step s a).obs])).flatten) := by
      show (FrameStack.State.mk (E.step s a).s
          (FrameStack.dequeAppend k (FrameStack.lastN k L) (E.step s a).obs) k,
        FrameStack.getOb (FrameStack.State.mk (E.step s a).s
          (FrameStack.dequeAppend k (FrameStack.lastN k L) (E.step s a).obs) k)) = _
      rw [dequeAppend_eq_lastN, lastN_append_lastN]
      rw [getOb_lastN (E.step s a).s k (L ++ [(E.step s a).obs]) (by simp; omega)]
    rw [hstep, run_foldl_spec E k acts (E.step s a).s (L ++ [(E.step s a).obs]) (by simp; omega)]
    simp [innerLastS, innerTrace, List.append_assoc]

/-- C8: starting from `FrameStack.reset`, the deque holds exactly `k` frames
(the reset observation repeated `k` times), every step appends the newest
observation and evicts the oldest so the length stays `k`, the assertion in
`_get_ob` never fails, and every returned observation is the concatenation
of the `k` most recent frames.  `acts` ranges over all executions, so every
intermediate observation is the final one of some run. -/
theorem C8_frame_stack (E : GymEnv S) (st0 : FrameStack.State S) (acts : List ℕ)
    (hlen : st0.frames.length ≤ st0.k) :
    (FrameStack.reset E st0).1.frames = List.replicate st0.k (E.reset st0.env).2 ∧
    (FrameStack.run E st0 acts).1.frames.length = st0.k ∧
    (FrameStack.run E st0 acts).1.frames =
      FrameStack.lastN st0.k
        (List.replicate st0.k (E.reset st0.env).2 ++ innerTrace E (E.reset st0.env).1 acts) ∧
    FrameStack.getOb (FrameStack.run E st0 acts).1 =
      some (FrameStack.run E st0 acts).1.frames.flatten ∧
    (FrameStack.run E st0 acts).2 =
      some (FrameStack.run E st0 acts).1.frames.flatten := by
  have hres := reset_frames E st0 hlen
  have hstate : FrameStack.reset E st0 =
      (FrameStack.State.mk (E.reset st0.env).1
        (FrameStack.lastN st0.k (List.replicate st0.k (E.reset st0.env).2)) st0.k,
       some (FrameStack.lastN st0.k (List.replicate st0.k (E.reset st0.env).2)).flatten) := by
    rw [lastN_of_le _ _ (by simp)]
    show ((FrameStack.reset E st0).1, FrameStack.getOb (FrameStack.reset E st0).1) = _
    rw [show (FrameStack.reset E st0).1 =
        FrameStack.State.mk (E.reset st0.env).1 (FrameStack.reset E st0).1.frames st0.k from rfl,
      hres]
    rw [FrameStack.getOb]
    simp
  have hrun : FrameStack.run E st0 acts =
      (FrameStack.State.mk (innerLastS E (E.reset st0.env).1 acts)
        (FrameStack.lastN st0.k
          (List.replicate st0.k (E.reset st0.env).2 ++ innerTrace E (E.reset st0.env).1 acts))
        st0.k,
       some (FrameStack.lastN st0.k
          (List.replicate st0.k (E.reset st0.env).2 ++
            innerTrace E (E.reset st0.env).1 acts)).flatten) := by
    rw [FrameStack.run, hstate]
    exact run_foldl_spec E st0.k acts (E.reset st0.env).1
      (List.replicate st0.k (E.reset st0.env).2) (by simp)
  refine ⟨hres, ?_, ?_, ?_, ?_⟩
  · rw [hrun]
    simp only [lastN_length, List.length_append, List.length_replicate]
    omega
  · rw [hrun]
  · rw [hrun]
    exact getOb_lastN _ _ _ (by simp)
  · rw [hrun]

/-- C8 witness: a three-step run with `k = 2`, through the theorem. -/
theorem C8_frame_stack_witness :
    (FrameStack.run countEnv (FrameStack.init 0 2) [0, 0, 0]).1.frames.length = 2 ∧
    (FrameStack.run countEnv (FrameStack.init 0 2) [0, 0, 0]).2 =
      some [101, 102] := by
  have h := C8_frame_stack countEnv (FrameStack.init 0 2) [0, 0, 0] (by decide)
  refine ⟨h.2.1, ?_⟩
  rw [h.2.2.2.2, h.2.2.1]
  norm_num [countEnv, innerTrace, FrameStack.lastN, FrameStack.init, List.replicate]

lemma noopLoop_succ (E : GymEnv S) (n : ℕ) (s : S) (o : Option Obs) :
    NoopResetEnv.noopLoop E (n + 1) s o =
      if (E.step s 0).done then
        NoopResetEnv.noopLoop E n (E.reset (E.step s 0).s).1 (some (E.reset (E.step s 0).s).2)
      else NoopResetEnv.noopLoop E n (E.step s 0).s (some (E.step s 0).obs) := by
  simp only [NoopResetEnv.noopLoop]

lemma noopState_succ (E : GymEnv S) (n : ℕ) (s : S) :
    NoopResetEnv.noopState E s (n + 1) =
      if (E.step (NoopResetEnv.noopState E s n) 0).done then
        (E.reset (E.step (NoopResetEnv.noopState E s n) 0).s).1
      else (E.step (NoopResetEnv.noopState E s n) 0).s := by
  simp only [NoopResetEnv.noopState]

lemma noopState_shift (E : GymEnv S) (s : S) :
    ∀ m, NoopResetEnv.noopState E (NoopResetEnv.noopState E s 1) m =
      NoopResetEnv.noopState E s (m + 1)
  | 0 => rfl
  | m + 1 => by
    rw [noopState_succ, noopState_shift E s m, ← noopState_succ]

lemma noopLoop_spec (E : GymEnv S) (n : ℕ) :
    ∀ (s : S) (o : Option Obs),
      NoopResetEnv.noopLoop E (n + 1) s o =
        (NoopResetEnv.noopState E s (n + 1),
         if (E.step (NoopResetEnv.noopState E s n) 0).done then
           some (E.reset (E.step (NoopResetEnv.noopState E s n) 0).s).2
         else some (E.step (NoopResetEnv.noopState E s n) 0).obs) := by
  induction n with
  | zero =>
    intro s o
    rw [noopLoop_succ]
    by_cases h : (E.step s 0).done
    · simp [h, NoopResetEnv.noopLoop, NoopResetEnv.noopState]
    · simp [h, NoopResetEnv.noopLoop, NoopResetEnv.noopState]
  | succ n ih =>
    intro s o
    rw [noopLoop_succ]
    have h1 : NoopResetEnv.noopState E s 1 =
        if (E.step s 0).done then (E.reset (E.step s 0).s).1 else (E.step s 0).s := by
      simp [NoopResetEnv.noopState]
    by_cases h : (E.step s 0).done
    · rw [if_pos h, ih,
        show (E.reset (E.step s 0).s).1 = NoopResetEnv.noopState E s 1 by rw [h1, if_pos h],
        noopState_shift, noopState_shift]
    · rw [if_neg h, ih,
        show (E.step s 0).s = NoopResetEnv.noopState E s 1 by rw [h1, if_neg h],
        noopState_shift, noopState_shift]

/-- C6 counterexample: with `override_num_noops = 1` on an env whose no-op
step is terminal and whose reset observation `[2]` differs from the step
observation `[1]`, `NoopResetEnv.reset` returns the reset observation, not
the one produced by the final no-op step. -/
theorem C6_noop_reset_counterexample :
    (NoopResetEnv.reset cexEnv 30 (some 1) 1 0).map (fun p => p.2) = some (some [2]) ∧
    (cexEnv.step ((cexEnv.reset 0).1) 0).obs = [1] ∧
    some (some ([2] : Obs)) ≠ some (some ([1] : Obs)) := by
  refine ⟨rfl, rfl, by norm_num⟩

/-- C6 (amended): `NoopResetEnv.reset` resets the wrapped env, then performs
`n` no-op steps with `n = override_num_noops` when set and otherwise a
uniform draw from `[1, noop_max]`; whenever a no-op step reports done the
wrapped env is reset again; the returned observation is the final no-op
step's observation when that step did not report done, and otherwise the
observation of the reset that follows it; `n` is asserted positive, so
`override_num_noops = 0` fails the assertion. -/
theorem C6_noop_reset_amended (E : GymEnv S) (noop_max : ℕ) (override : Option ℕ)
    (draw : ℕ) (s : S) (hdraw : override = none → 1 ≤ draw ∧ draw ≤ noop_max) :
    (override = some 0 → NoopResetEnv.reset E noop_max override draw s = none) ∧
    (override = none → 0 < override.getD draw ∧ override.getD draw ≤ noop_max) ∧
    (∀ m, override.getD draw = m + 1 →
      NoopResetEnv.reset E noop_max override draw s =
        some (NoopResetEnv.noopState E (E.reset s).1 (m + 1),
          if (E.step (NoopResetEnv.noopState E (E.reset s).1 m) 0).done then
            some (E.reset (E.step (NoopResetEnv.noopState E (E.reset s).1 m) 0).s).2
          else some (E.step (NoopResetEnv.noopState E (E.reset s).1 m) 0).obs)) := by
  refine ⟨fun h0 => ?_, fun hn => ?_, fun m hm => ?_⟩
  · simp [NoopResetEnv.reset, h0]
  · subst hn
    simpa using hdraw rfl
  · simp only [NoopResetEnv.reset, hm]
    rw [if_pos (Nat.succ_pos m), noopLoop_spec]

/-- C6 witness: `override_num_noops = 2` on the terminal env, and the failing
assertion at `override_num_noops = 0`, through the amended theorem. -/
theorem C6_noop_reset_amended_witness :
    NoopResetEnv.reset cexEnv 30 (some 2) 1 0 = some (0, some [2]) ∧
    NoopResetEnv.reset cexEnv 30 (some 0) 1 0 = none := by
  constructor
  · have h2 := (C6_noop_reset_amended cexEnv 30 (some 2) 1 0 (fun h => nomatch h)).2.2 1 rfl
    rw [h2]
    rfl
  · exact (C6_noop_reset_amended cexEnv 30 (some 0) 1 0 (fun h => nomatch h)).1 rfl

lemma maxSkipLoop_succ (E : GymEnv S) (a skip fuel i : ℕ) (s : S) (b0 b1 : Obs) (total : ℚ) :
    MaxAndSkipEnv.loop E a skip (fuel + 1) i s b0 b1 total =
      (if (E.step s a).done then
        some ((E.step s a).s,
          (if (i : ℤ) = (skip : ℤ) - 2 then (E.step s a).obs else b0),
          (if (i : ℤ) = (skip : ℤ) - 1 then (E.step s a).obs else b1),
          total + (E.step s a).reward, (E.step s a).done, (E.step s a).info)
      else
        match MaxAndSkipEnv.loop E a skip fuel (i + 1) (E.step s a).s
            (if (i : ℤ) = (skip : ℤ) - 2 then (E.step s a).obs else b0)
            (if (i : ℤ) = (skip : ℤ) - 1 then (E.step s a).obs else b1)
            (total + (E.step s a).reward) with
        | none => some ((E.step s a).s,
            (if (i : ℤ) = (skip : ℤ) - 2 then (E.step s a).obs else b0),
            (if (i : ℤ) = (skip : ℤ) - 1 then (E.step s a).obs else b1),
            total + (E.step s a).reward, (E.step s a).done, (E.step s a).info)
        | some out => some out) := by
  simp only [MaxAndSkipEnv.loop]

lemma stepsFrom_succ (E : GymEnv S) (a n : ℕ) (s : S) :
    MaxAndSkipEnv.stepsFrom E a (n + 1) s =
      E.step s a :: MaxAndSkipEnv.stepsFrom E a n (E.step s a).s := rfl

lemma stepsFrom_length (E : GymEnv S) (a : ℕ) :
    ∀ (n : ℕ) (s : S), (MaxAndSkipEnv.stepsFrom E a n s).length = n
  | 0, _ => rfl
  | n + 1, s => by
    rw [stepsFrom_succ, List.length_cons, stepsFrom_length E a n]

lemma execPref_cons_done (r : StepRes S) (rs : List (StepRes S)) (h : r.done = true) :
    MaxAndSkipEnv.execPref (r :: rs) = [r] := by
  simp [MaxAndSkipEnv.execPref, h]

lemma execPref_cons_not_done (r : StepRes S) (rs : List (StepRes S)) (h : r.done = false) :
    MaxAndSkipEnv.execPref (r :: rs) = r :: MaxAndSkipEnv.execPref rs := by
  simp [MaxAndSkipEnv.execPref, h]

lemma execPref_ne_nil (r : StepRes S) (rs : List (StepRes S)) :
    MaxAndSkipEnv.execPref (r :: rs) ≠ [] := by
  by_cases h : r.done
  · rw [execPref_cons_done r rs h]
    simp
  · rw [execPref_cons_not_done r rs (by simpa using h)]
    simp

lemma execPref_length_le : ∀ (l : List (StepRes S)),
    (MaxAndSkipEnv.execPref l).length ≤ l.length
  | [] => le_refl 0
  | r :: rs => by
    by_cases h : r.done
    · rw [execPref_cons_done r rs h]
      simp
    · rw [execPref_cons_not_done r rs (by simpa using h)]
      simpa using execPref_length_le rs

lemma execPref_dropLast (l : List (StepRes S)) :
    ∀ r ∈ (MaxAndSkipEnv.execPref l).dropLast, r.done = false := by
  induction l with
  | nil => simp [MaxAndSkipEnv.execPref]
  | cons x t ih =>
    by_cases hx : x.done
    · rw [execPref_cons_done x t hx]
      simp
    · rw [execPref_cons_not_done x t (by simpa using hx)]
      rcases hl : MaxAndSkipEnv.execPref t with _ | ⟨y, t2⟩
      · simp
      · rw [List.dropLast_cons₂]
        intro r hr
        rcases List.mem_cons.mp hr with h | h
        · subst h
          simpa using hx
        · exact ih r (by rw [hl]; exact h)

lemma obsAt_nil (j : ℤ) (b : Obs) :
    MaxAndSkipEnv.obsAt j b ([] : List (StepRes S)) = b := by
  simp [MaxAndSkipEnv.obsAt]

lemma obsAt_cons (j : ℤ) (b : Obs) (r : StepRes S) (ex : List (StepRes S)) :
    MaxAndSkipEnv.obsAt j b (r :: ex) =
      MaxAndSkipEnv.obsAt (j - 1) (if j = 0 then r.obs else b) ex := by
  simp only [MaxAndSkipEnv.obsAt, List.map_cons]
  rcases lt_trichotomy j 0 with h | h | h
  · rw [if_neg (by omega), if_neg (by omega), if_neg (by omega)]
  · subst h
    rw [if_pos le_rfl, if_neg (by omega), if_pos rfl]
    simp
  · rw [if_pos (by omega), if_pos (by omega), if_neg (by omega)]
    have hj : j.toNat = (j - 1).toNat + 1 := by omega
    rw [hj, List.getD_cons_succ]

lemma lastS_cons (s : S) (r : StepRes S) (rs : List (StepRes S)) :
    MaxAndSkipEnv.lastS s (r :: rs) = MaxAndSkipEnv.lastS r.s rs := rfl

lemma lastInfo_cons (d : StepInfo) (r : StepRes S) (rs : List (StepRes S)) :
    MaxAndSkipEnv.lastInfo d (r :: rs) = MaxAndSkipEnv.lastInfo r.info rs := rfl

lemma lastInfo_d_irrel (d1 d2 : StepInfo) :
    ∀ (l : List (StepRes S)), l ≠ [] →
      MaxAndSkipEnv.lastInfo d1 l = MaxAndSkipEnv.lastInfo d2 l
  | [], h => absurd rfl h
  | _ :: _, _ => rfl

lemma lastS_nil (s : S) : MaxAndSkipEnv.lastS s ([] : List (StepRes S)) = s := rfl

lemma lastInfo_nil (d : StepInfo) : MaxAndSkipEnv.lastInfo d ([] : List (StepRes S)) = d := rfl

lemma maxSkipLoop_spec (E : GymEnv S) (a skip : ℕ) (fuel : ℕ) :
    ∀ (i : ℕ) (s : S) (b0 b1 : Obs) (total : ℚ), fuel ≠ 0 →
      MaxAndSkipEnv.loop E a skip fuel i s b0 b1 total =
        some (MaxAndSkipEnv.lastS s
            (MaxAndSkipEnv.execPref (MaxAndSkipEnv.stepsFrom E a fuel s)),
          MaxAndSkipEnv.obsAt ((skip : ℤ) - 2 - (i : ℤ)) b0
            (MaxAndSkipEnv.execPref (MaxAndSkipEnv.stepsFrom E a fuel s)),
          MaxAndSkipEnv.obsAt ((skip : ℤ) - 1 - (i : ℤ)) b1
            (MaxAndSkipEnv.execPref (MaxAndSkipEnv.stepsFrom E a fuel s)),
          total + ((MaxAndSkipEnv.execPref (MaxAndSkipEnv.stepsFrom E a fuel s)).map
            (fun r => r.reward)).sum,
          (MaxAndSkipEnv.execPref (MaxAndSkipEnv.stepsFrom E a fuel s)).any (fun r => r.done),
          MaxAndSkipEnv.lastInfo {}
            (MaxAndSkipEnv.execPref (MaxAndSkipEnv.stepsFrom E a fuel s))) := by
  induction fuel with
  | zero => intro i s b0 b1 total hfuel; exact absurd rfl hfuel
  | succ m ih =>
    intro i s b0 b1 total _
    have hc0 : ∀ (x y : Obs),
        (if ((skip : ℤ) - 2 - (i : ℤ)) = 0 then x else y) =
        (if (i : ℤ) = (skip : ℤ) - 2 then x else y) :=
      fun x y => if_congr (by omega) rfl rfl
    have hc1 : ∀ (x y : Obs),
        (if ((skip : ℤ) - 1 - (i : ℤ)) = 0 then x else y) =
        (if (i : ℤ) = (skip : ℤ) - 1 then x else y) :=
      fun x y => if_congr (by omega) rfl rfl
    have e0 : (skip : ℤ) - 2 - (i : ℤ) - 1 = (skip : ℤ) - 2 - ((i + 1 : ℕ) : ℤ) := by
      push_cast
      ring
    have e1 : (skip : ℤ) - 1 - (i : ℤ) - 1 = (skip : ℤ) - 1 - ((i + 1 : ℕ) : ℤ) := by
      push_cast
      ring
    rw [maxSkipLoop_succ, stepsFrom_succ]
    by_cases hd : (E.step s a).done
    · rw [if_pos hd, execPref_cons_done _ _ hd]
      simp only [lastS_cons, lastS_nil, obsAt_cons, obsAt_nil, lastInfo_cons, lastInfo_nil,
        List.map_cons, List.map_nil, List.sum_cons, List.sum_nil, List.any_cons, List.any_nil,
        add_zero, Bool.or_false, hd, hc0, hc1]
    · have hd' : (E.step s a).done = false := by simpa using hd
      rw [if_neg (by simp [hd']), execPref_cons_not_done _ _ hd']
      match m, ih with
      | 0, _ =>
        rw [show MaxAndSkipEnv.loop E a skip 0 (i + 1) (E.step s a).s
            (if (i : ℤ) = (skip : ℤ) - 2 then (E.step s a).obs else b0)
            (if (i : ℤ) = (skip : ℤ) - 1 then (E.step s a).obs else b1)
            (total + (E.step s a).reward) = none from rfl]
        simp only [MaxAndSkipEnv.stepsFrom, MaxAndSkipEnv.execPref,
          lastS_cons, lastS_nil, obsAt_cons, obsAt_nil, lastInfo_cons, lastInfo_nil,
          List.map_cons, List.map_nil, List.sum_cons, List.sum_nil, List.any_cons, List.any_nil,
          add_zero, Bool.or_false, hd', hc0, hc1]
      | m' + 1, ih =>
        rw [ih (i + 1) (E.step s a).s
          (if (i : ℤ) = (skip : ℤ) - 2 then (E.step s a).obs else b0)
          (if (i : ℤ) = (skip : ℤ) - 1 then (E.step s a).obs else b1)
          (total + (E.step s a).reward) (Nat.succ_ne_zero m')]
        have hne : MaxAndSkipEnv.execPref
            (MaxAndSkipEnv.stepsFrom E a (m' + 1) (E.step s a).s) ≠ [] := by
          rw [stepsFrom_succ]
          exact execPref_ne_nil _ _
        simp only [lastS_cons, obsAt_cons, lastInfo_cons, List.map_cons, List.sum_cons,
          List.any_cons, hd', Bool.false_or, hc0, hc1, e0, e1,
          lastInfo_d_irrel ((E.step s a)).info {} _ hne, add_assoc]

lemma obsAt_default (j : ℤ) (b : Obs) (ex : List (StepRes S)) (h : ex.length ≤ j.toNat) :
    MaxAndSkipEnv.obsAt j b ex = b := by
  simp only [MaxAndSkipEnv.obsAt]
  split
  · exact List.getD_eq_default _ _ (by simpa using h)
  · rfl

/-- C4: `MaxAndSkipEnv.step` with `skip = k` invokes the wrapped step with
the same action up to `k` times, stopping at the first `done`; the returned
reward is the sum of the collected rewards (also in `info["real_reward"]`);
the returned observation is the elementwise max of the two buffer slots,
which receive the raw observations of repeats `k-2` and `k-1`; and when the
episode ends before repeat `k-2` both slots keep their previous (leftover or
zero) contents. -/
theorem C4_max_and_skip (E : GymEnv S) (st : MaxAndSkipEnv.State S) (a : ℕ)
    (hs : 2 ≤ st.skip) :
    (MaxAndSkipEnv.execPref (MaxAndSkipEnv.stepsFrom E a st.skip st.env)).length ≤ st.skip ∧
    (∀ r ∈ (MaxAndSkipEnv.execPref (MaxAndSkipEnv.stepsFrom E a st.skip st.env)).dropLast,
      r.done = false) ∧
    MaxAndSkipEnv.step E st a =
      some ({ st with
          env := MaxAndSkipEnv.lastS st.env
            (MaxAndSkipEnv.execPref (MaxAndSkipEnv.stepsFrom E a st.skip st.env)),
          buf0 := MaxAndSkipEnv.obsAt ((st.skip : ℤ) - 2) st.buf0
            (MaxAndSkipEnv.execPref (MaxAndSkipEnv.stepsFrom E a st.skip st.env)),
          buf1 := MaxAndSkipEnv.obsAt ((st.skip : ℤ) - 1) st.buf1
            (MaxAndSkipEnv.execPref (MaxAndSkipEnv.stepsFrom E a st.skip st.env)) },
        List.zipWith max
          (MaxAndSkipEnv.obsAt ((st.skip : ℤ) - 2) st.buf0
            (MaxAndSkipEnv.execPref (MaxAndSkipEnv.stepsFrom E a st.skip st.env)))
          (MaxAndSkipEnv.obsAt ((st.skip : ℤ) - 1) st.buf1
            (MaxAndSkipEnv.execPref (MaxAndSkipEnv.stepsFrom E a st.skip st.env))),
        ((MaxAndSkipEnv.execPref (MaxAndSkipEnv.stepsFrom E a st.skip st.env)).map
          (fun r => r.reward)).sum,
        (MaxAndSkipEnv.execPref (MaxAndSkipEnv.stepsFrom E a st.skip st.env)).any
          (fun r => r.done),
        { MaxAndSkipEnv.lastInfo {}
            (MaxAndSkipEnv.execPref (MaxAndSkipEnv.stepsFrom E a st.skip st.env)) with
          realReward := some (((MaxAndSkipEnv.execPref
            (MaxAndSkipEnv.stepsFrom E a st.skip st.env)).map (fun r => r.reward)).sum),
          realDone := some ((MaxAndSkipEnv.execPref
            (MaxAndSkipEnv.stepsFrom E a st.skip st.env)).any (fun r => r.done)) }) ∧
    ((MaxAndSkipEnv.execPref (MaxAndSkipEnv.stepsFrom E a st.skip st.env)).length + 1 <
        st.skip →
      MaxAndSkipEnv.obsAt ((st.skip : ℤ) - 2) st.buf0
        (MaxAndSkipEnv.execPref (MaxAndSkipEnv.stepsFrom E a st.skip st.env)) = st.buf0 ∧
      MaxAndSkipEnv.obsAt ((st.skip : ℤ) - 1) st.buf1
        (MaxAndSkipEnv.execPref (MaxAndSkipEnv.stepsFrom E a st.skip st.env)) = st.buf1) := by
  refine ⟨?_, execPref_dropLast _, ?_, fun h => ?_⟩
  · calc (MaxAndSkipEnv.execPref (MaxAndSkipEnv.stepsFrom E a st.skip st.env)).length
        ≤ (MaxAndSkipEnv.stepsFrom E a st.skip st.env).length := execPref_length_le _
      _ = st.skip := stepsFrom_length E a st.skip st.env
  · have hspec := maxSkipLoop_spec E a st.skip st.skip 0 st.env st.buf0 st.buf1 0
      (by omega)
    simp only [Nat.cast_zero, sub_zero, zero_add] at hspec
    simp only [MaxAndSkipEnv.step]
    rw [hspec]
  · refine ⟨obsAt_default _ _ _ ?_, obsAt_default _ _ _ ?_⟩ <;> omega

/-- C4 witness: `skip = 4` on a never-done counting env, through the theorem. -/
theorem C4_max_and_skip_witness :
    MaxAndSkipEnv.step countEnv (MaxAndSkipEnv.init 10 1 4) 0 =
      some ({ env := 14, buf0 := [12], buf1 := [13], skip := 4 },
        [13], 4, false,
        { realReward := some 4, realDone := some false, episode := none }) := by
  have h := (C4_max_and_skip countEnv (MaxAndSkipEnv.init 10 1 4) 0 (by decide)).2.2.1
  rw [h]
  norm_num [countEnv, MaxAndSkipEnv.init, MaxAndSkipEnv.stepsFrom, MaxAndSkipEnv.execPref,
    MaxAndSkipEnv.obsAt, MaxAndSkipEnv.lastS, MaxAndSkipEnv.lastInfo, max_def, List.getD,
    Int.toNat_ofNat, List.getElem_cons_succ, List.getElem_cons_zero]
  norm_num [show Int.toNat 2 = 2 from rfl, show Int.toNat 3 = 3 from rfl, max_def]
